import Mathlib

/-!
Verification of the gofer messaging core against its specification.

Shallow embedding of:
* `gofer/rmi/store.py` — the durable pending queue (`PendingQueue`).
* `gofer/messaging/consumer.py` — the consumer read loop (`ConsumerThread._read`).
* `gofer/messaging/adapter/proton/reliability.py` — the `reliable` and `resend`
  retry wrappers.
* `gofer/messaging/adapter/qpid/model.py` — the QMF `Method` channel.

Machine integers do not occur; times are seconds since the epoch, modelled as `Nat`.
Filesystem state is a list of directory entries; the opaque JSON serialisation of
an envelope is modelled by a `FileData` payload that either holds the envelope
(`dump` round-trips) or is garbage that fails to decode.
-/

namespace Gofer

/-! ## Window and tracker

`gofer/rmi/window.py` and `gofer/rmi/tracker.py` are not part of the sources
under verification; they are modelled from the specification (§4.F, §4.G).
-/

/-- An execution window `[begin, begin+duration)`, times in UTC seconds. -/
structure Window where
  wbegin : Nat
  duration : Nat
deriving DecidableEq

/-- Modelled from the spec: `gofer.rmi.window.Window.future` (window.py is not in
the sources). §4.G: `future(window, now)` is true iff `window.begin > now`. -/
def Window.future (w : Window) (now : Nat) : Bool :=
  now < w.wbegin

/-- The raw `window` attribute of an envelope: either data that parses into a
`Window`, or malformed data on which constructing a `Window` raises. -/
inductive WindowSpec where
  | malformed
  | valid (w : Window)
deriving DecidableEq

/-- The wire document (`gofer.messaging.model.Envelope`), restricted to the
fields the pending queue reads and writes. -/
structure Envelope where
  sn : String
  any : String
  ts : Option Nat := none
  url : Option String := none
  window : Option WindowSpec := none
deriving DecidableEq

/-- A tracker entry: `{sn -> {any, cancelled}}` (spec §3). -/
structure TrackerEntry where
  sn : String
  any : String
  cancelled : Bool
deriving DecidableEq

/-- Modelled from the spec: `gofer.rmi.tracker.Tracker` (tracker.py is not in the
sources). §4.F: a registry of in-flight serial numbers and cancellations. -/
structure Tracker where
  entries : List TrackerEntry
deriving DecidableEq

/-- Modelled from the spec (§4.F): `add(sn, any)` registers an un-cancelled entry. -/
def Tracker.add (t : Tracker) (sn any : String) : Tracker :=
  { entries := ⟨sn, any, false⟩ :: t.entries }

/-- Lookup of a tracked serial number. -/
def Tracker.find (t : Tracker) (sn : String) : Option TrackerEntry :=
  t.entries.find? (fun e => e.sn = sn)

/-- Modelled from the spec (§4.F): `cancelled(sn)` — whether the sn is tracked
and flagged cancelled. -/
def Tracker.cancelled (t : Tracker) (sn : String) : Bool :=
  match t.find sn with
  | some e => e.cancelled
  | none => false

/-! ## Filesystem model for `ROOT` -/

/-- Contents of a file under `ROOT`: an encoded envelope or garbage. -/
inductive FileData where
  | garbage
  | doc (e : Envelope)
deriving DecidableEq

/-- `Envelope.dump()` — the full (opaque) serialisation. -/
def Envelope.dump (e : Envelope) : FileData :=
  .doc e

/-- `Envelope().load(s)` — decoding a file body; fails on garbage. -/
def decode : FileData → Option Envelope
  | .garbage => none
  | .doc e => some e

/-- One file under `ROOT`: name (= sn), content, and create timestamp. -/
structure DirEntry where
  name : String
  data : FileData
  ctime : Nat
deriving DecidableEq

/-- Filesystem side effects performed by the queue, recorded as a trace. -/
inductive FsOp where
  | write (path : String) (data : FileData)
  | fsync (path : String)
  | unlink (path : String)
deriving DecidableEq

/-- Whether a filesystem operation is an fsync. -/
def FsOp.isFsync : FsOp → Bool
  | .fsync _ => true
  | _ => false

/-- Write (create or replace) a file; the new entry's ctime is `now`. -/
def writeFile (fs : List DirEntry) (name : String) (data : FileData) (now : Nat) :
    List DirEntry :=
  ⟨name, data, now⟩ :: fs.filter (fun f => f.name ≠ name)

/-- Read a file's content by name. -/
def readFile (fs : List DirEntry) (name : String) : Option FileData :=
  (fs.find? (fun f => f.name = name)).map (fun f => f.data)

/-! ## The pending queue (`gofer/rmi/store.py`) -/

/-- The joint state touched by `PendingQueue`: the in-memory `__pending` list
(head = most recently inserted), the `__uncommitted` map, the contents of the
`ROOT` directory, the process-wide tracker and the `__event` flag. -/
structure Sys where
  pending : List Envelope
  uncommitted : List (String × Envelope)
  fs : List DirEntry
  tracker : Tracker
  event : Bool
deriving DecidableEq

namespace PendingQueue

/-- `PendingQueue.__delayed`: an envelope with a window that is neither
cancelled nor parse-broken is delayed iff the window is in the future.  The
cancellation test happens before the `Window` is constructed, so a cancelled
envelope never raises here; constructing a `Window` from malformed data
raises (`.error`). -/
def delayed (now : Nat) (tr : Tracker) (e : Envelope) : Except Unit Bool :=
  match e.window with
  | none => .ok false
  | some ws =>
    if tr.cancelled e.sn then
      .ok false
    else
      match ws with
      | .malformed => .error ()
      | .valid w => .ok (w.future now)

/-- `PendingQueue.__pending_commit`: move the envelope from `__pending` to
`__uncommitted[sn]`. -/
def pendingCommit (e : Envelope) (st : Sys) : Sys :=
  { st with
    pending := st.pending.erase e
    uncommitted := (e.sn, e) :: st.uncommitted.filter (fun p => p.1 ≠ e.sn) }

/-- `PendingQueue.__purge`: unlink `ROOT/{sn}` and drop the envelope from
`__pending`. -/
def purge (e : Envelope) (st : Sys) : Sys :=
  { st with
    fs := st.fs.filter (fun f => f.name ≠ e.sn)
    pending := st.pending.erase e }

/-- `PendingQueue.__pop`: walk the snapshot from the tail (the argument here is
the snapshot already reversed, so its head is the tail of `__pending`); skip
delayed entries, purge entries whose window data raises, and return the first
ready entry after moving it to `__uncommitted`. -/
def popFrom (now : Nat) : List Envelope → Sys → Option Envelope × Sys
  | [], st => (none, st)
  | e :: rest, st =>
    match delayed now st.tracker e with
    | .ok true => popFrom now rest st
    | .ok false => (some e, pendingCommit e st)
    | .error _ => popFrom now rest (purge e st)

/-- One scan of `PendingQueue.__get`: snapshot `__pending` under the lock and
pop from its tail. -/
def getScan (now : Nat) (st : Sys) : Option Envelope × Sys :=
  popFrom now st.pending.reverse st

/-- Repeatedly run get scans, collecting the dispatched envelopes in order. -/
def drain (now : Nat) : Nat → Sys → List Envelope
  | 0, _ => []
  | n + 1, st =>
    match getScan now st with
    | (some e, st') => e :: drain now n st'
    | (none, _) => []

/-- The `ts`/`url` stamping done at the top of `PendingQueue.add`. -/
def stamp (now : Nat) (url : String) (e : Envelope) : Envelope :=
  { e with ts := some now, url := some url }

/-- `PendingQueue.add(url, envelope)`: stamp `ts` and `url`, write
`ROOT/{sn}` with the full dump, then under the lock register the sn with the
tracker and insert the envelope at the head of `__pending`, and finally set the
event.  Also returns the trace of filesystem operations performed. -/
def add (now : Nat) (url : String) (e0 : Envelope) (st : Sys) : Sys × List FsOp :=
  let e := stamp now url e0
  ({ pending := e :: st.pending
     uncommitted := st.uncommitted
     fs := writeFile st.fs e.sn e.dump now
     tracker := st.tracker.add e.sn e.any
     event := true },
   [FsOp.write e.sn e.dump])

/-- One step of the `PendingQueue.__load` directory scan: decode the file; a
file that decodes contributes a `(ctime, envelope)` pair and stays on disk, a
file that does not decode is unlinked (dropped from the kept list). -/
def loadStep (acc : List (Nat × Envelope) × List DirEntry) (f : DirEntry) :
    List (Nat × Envelope) × List DirEntry :=
  match decode f.data with
  | some e => (acc.1 ++ [(f.ctime, e)], acc.2 ++ [f])
  | none => acc

/-- Ordering used by `pending.sort()`: ascending create time. -/
def byCtime (a b : Nat × Envelope) : Prop :=
  a.1 ≤ b.1

instance : DecidableRel byCtime := fun a b => inferInstanceAs (Decidable (a.1 ≤ b.1))

instance : IsTotal (Nat × Envelope) byCtime :=
  ⟨fun a b => Nat.le_total a.1 b.1⟩

instance : IsTrans (Nat × Envelope) byCtime :=
  ⟨fun _ _ _ => Nat.le_trans⟩

/-- `PendingQueue.__load`: scan the directory, discard (unlink) entries that do
not decode, sort the survivors by create time and install them as `__pending`.
Returns the new `__pending` list together with the files remaining on disk. -/
def load (dir : List DirEntry) : List Envelope × List DirEntry :=
  let scan := dir.foldl loadStep ([], [])
  ((scan.1.insertionSort byCtime).map Prod.snd, scan.2)

/-- `PendingQueue.__init__`: make the directory, run `__load`. -/
def init (tr : Tracker) (dir : List DirEntry) : Sys :=
  let l := load dir
  { pending := l.1, uncommitted := [], fs := l.2, tracker := tr, event := false }

/-- A sequence of `add` calls (all with the same clock and broker url). -/
def addAll (now : Nat) (url : String) (es : List Envelope) (st : Sys) : Sys :=
  es.foldl (fun s e => (add now url e s).1) st

/-- The empty queue state over an empty `ROOT`. -/
def emptySys (tr : Tracker) : Sys :=
  { pending := [], uncommitted := [], fs := [], tracker := tr, event := false }

end PendingQueue

/-! ## The consumer read loop (`gofer/messaging/consumer.py`) -/

/-- The payload of an `InvalidDocument` exception. -/
structure Invalid where
  code : String
  description : String
  document : String
  details : String
deriving DecidableEq

/-- Outcome of one `Reader.next(10)` call, as seen by `ConsumerThread._read`:
a timeout `(None, None)`, a decoded document, an `InvalidDocument` raised while
decoding, or any other (recoverable) exception. -/
inductive NextOutcome where
  | timeout
  | message (document : String)
  | invalid (i : Invalid)
  | failed
deriving DecidableEq

/-- Outcome of the `dispatch(document)` extension point. -/
inductive DispatchOutcome where
  | ok
  | invalid (i : Invalid)
  | failed
deriving DecidableEq

/-- Observable actions of one pass of the consumer loop. -/
inductive Event where
  | ack
  | rejected (code description document details : String)
  | dispatched (document : String)
  | slept (seconds : Nat)
  | closed
  | opened
deriving DecidableEq

/-- Modelled from the spec: `gofer.messaging.adapter.model.Reader.next` is not
in the sources (only its caller `ConsumerThread._read` is).  Per §4.E ("if
`InvalidDocument`, call `rejected(...)` and ack"), §7 ("Invalid document —
caught at the consumer boundary, reported via `rejected()`, message acked") and
scenario S6, a message whose decoding raises `InvalidDocument` is acked before
the exception propagates to the consumer, whose handler itself does not ack;
the events emitted inside `next` are returned alongside its outcome. -/
def readerNext (outcome : NextOutcome) : List Event × NextOutcome :=
  match outcome with
  | .invalid i => ([Event.ack], .invalid i)
  | o => ([], o)

/-- `ConsumerThread._read`: one pass of the read loop, as the trace of events it
emits.  The pass reads (`readerNext`), dispatches on success and then acks; an
`InvalidDocument` raised by either step reaches the first handler, which calls
`_rejected(code, description, document, details)`; any other exception reaches
the second handler, which sleeps 60 s, closes and reopens the reader. -/
def ConsumerThread.read (next : NextOutcome) (dispatch : DispatchOutcome) :
    List Event :=
  let r := readerNext next
  r.1 ++
    match r.2 with
    | .timeout => []
    | .invalid i => [Event.rejected i.code i.description i.document i.details]
    | .failed => [Event.slept 60, Event.closed, Event.opened]
    | .message doc =>
      match dispatch with
      | .ok => [Event.dispatched doc, Event.ack]
      | .invalid i =>
        [Event.dispatched doc,
         Event.rejected i.code i.description i.document i.details]
      | .failed => [Event.dispatched doc, Event.slept 60, Event.closed, Event.opened]

/-! ## The QMF method channel (`gofer/messaging/adapter/qpid/model.py`) -/

namespace Qpid

/-- `EEXIST = 7` — the broker's "already exists" error code. -/
def EEXIST : Nat := 7

/-- `qpid.model.Error`: description plus the qpid error code. -/
structure Error where
  description : String
  code : Nat
deriving DecidableEq

/-- A QMF reply as read by `Method.on_reply`: the `qmf.opcode` property and the
`_values.error_code` / `_values.error_text` paths of the body (the body paths
are only consulted on the exception branch). -/
structure Reply where
  opcode : String
  error_code : Nat
  error_text : String
deriving DecidableEq

/-- `Method.on_reply`: a reply whose opcode is not `_exception` succeeds; an
exception reply with error code `EEXIST` is swallowed; any other exception
reply raises `Error(error_text, error_code)`. -/
def Method.on_reply (reply : Reply) : Except Error Unit :=
  if reply.opcode ≠ "_exception" then
    .ok ()
  else
    let code := reply.error_code
    let description := reply.error_text
    if code = EEXIST then
      .ok ()
    else
      .error ⟨description, code⟩

/-- The four resources acquired by `Method.__call__`, in acquisition order
`connection`, `session`, `sender`, `receiver`. -/
inductive Res where
  | connection
  | session
  | sender
  | receiver
deriving DecidableEq

/-- Which of the `close()` calls in the `finally` block raise. -/
structure CloseFlags where
  receiverFails : Bool
  senderFails : Bool
  sessionFails : Bool
deriving DecidableEq

/-- Outcome of the `try` body of `Method.__call__` (send, fetch, acknowledge,
`on_reply`): normal return or an exception. -/
inductive BodyOutcome where
  | ok
  | raised (e : String)
deriving DecidableEq

/-- Result of an individual `close()` call under the given failure flags. -/
def closeResult (cf : CloseFlags) (r : Res) : Except String Unit :=
  match r with
  | .receiver => if cf.receiverFails then .error "close" else .ok ()
  | .sender => if cf.senderFails then .error "close" else .ok ()
  | .session => if cf.sessionFails then .error "close" else .ok ()
  | .connection => .ok ()

/-- One `try: r.close() except Exception: pass` clause: the close is invoked
(appended to the trace) and its exception, if any, is suppressed, so the
already-accumulated trace keeps growing regardless of the outcome. -/
def attemptClose (cf : CloseFlags) (t : List Res) (r : Res) : List Res :=
  match closeResult cf r with
  | .ok _ => t ++ [r]
  | .error _ => t ++ [r]

/-- The `finally` block of `Method.__call__`: close the receiver, the sender
and the session, in that order, each with suppression. -/
def methodFinally (cf : CloseFlags) : List Res :=
  let t := attemptClose cf [] Res.receiver
  let t := attemptClose cf t Res.sender
  attemptClose cf t Res.session

/-- `Method.__call__` after all four resources have been acquired: run the
body, then the `finally` block on every exit path; the body's exception (if
any) propagates, the closes' exceptions never do.  Returns the body's result
and the trace of close calls. -/
def Method.call (body : BodyOutcome) (cf : CloseFlags) :
    Except String Unit × List Res :=
  let result : Except String Unit :=
    match body with
    | .ok => .ok ()
    | .raised e => .error e
  (result, methodFinally cf)

end Qpid

/-! ## The proton retry wrappers (`gofer/messaging/adapter/proton/reliability.py`) -/

namespace Reliability

/-- `DELAY = 10` seconds — sleep between reliable retries. -/
def DELAY : Nat := 10

/-- Modelled from the spec: `DAY` comes from
`gofer.messaging.adapter.reliability`, which is not in the sources; §4.D fixes
`MAX_RESEND = 86400 / RESEND_DELAY` (≈24 h), so `DAY = 86400` seconds. -/
def DAY : Nat := 86400

/-- `RESEND_DELAY = 10` seconds. -/
def RESEND_DELAY : Nat := 10

/-- `MAX_RESEND = DAY / RESEND_DELAY`. -/
def MAX_RESEND : Nat := DAY / RESEND_DELAY

/-- `NOT_FOUND = 'amqp:not-found'`. -/
def NOT_FOUND : String := "amqp:not-found"

/-- A proton delivery state, as compared against `Delivery.RELEASED`. -/
inductive DeliveryState where
  | released
  | accepted
  | rejectedState
  | modified
deriving DecidableEq

/-- Outcome of one invocation of a wrapped operation `fn(messenger, ...)`:
normal return, `LinkDetached` with a condition, `ConnectionException`, or
`SendException` with a delivery state. -/
inductive ROutcome (α : Type) where
  | ok (a : α)
  | linkDetached (condition : String)
  | connErr
  | sendErr (s : DeliveryState)
deriving DecidableEq

/-- Bookkeeping of the `reliable` loop: whether `repair` has been rebound from
the initial no-op lambda to `messenger.repair`, how many times
`messenger.repair` has run, and the seconds slept. -/
structure RelState where
  repairSet : Bool
  repairs : Nat
  slept : Nat
deriving DecidableEq

/-- Result of a `reliable`-wrapped call: normal return, `NotFound` raised for a
link detached with condition `not-found`, or an uncaught `SendException`. -/
inductive RelResult (α : Type) where
  | ok (a : α)
  | notFound (condition : String)
  | sendErr (s : DeliveryState)
deriving DecidableEq

/-- The `while not Thread.aborted()` loop of `reliable`.  `fn k` is the outcome
of the k-th invocation of the wrapped operation.  Each iteration first runs
`repair()` — counted only once `repair` has been rebound to `messenger.repair`
after a fault — then invokes the operation; connection faults and non-`not-found`
link detachments sleep `DELAY` and retry, a `not-found` detachment raises
`NotFound`, and a `SendException` propagates.  `fuel` bounds the number of
iterations; `none` means the loop was still running. -/
def reliableLoop (fn : Nat → ROutcome α) :
    Nat → Nat → RelState → Option (RelResult α × RelState)
  | 0, _, _ => none
  | fuel + 1, attempt, s =>
    let s1 : RelState := if s.repairSet then { s with repairs := s.repairs + 1 } else s
    match fn attempt with
    | .ok a => some (.ok a, s1)
    | .linkDetached cond =>
      if cond ≠ NOT_FOUND then
        reliableLoop fn fuel (attempt + 1)
          { s1 with repairSet := true, slept := s1.slept + DELAY }
      else
        some (.notFound cond, s1)
    | .connErr =>
      reliableLoop fn fuel (attempt + 1)
        { s1 with repairSet := true, slept := s1.slept + DELAY }
    | .sendErr st => some (.sendErr st, s1)

/-- A `reliable`-wrapped call, started with the no-op repair. -/
def reliable (fn : Nat → ROutcome α) (fuel : Nat) :
    Option (RelResult α × RelState) :=
  reliableLoop fn fuel 0 ⟨false, 0, 0⟩

/-- Outcome of one attempt of the operation wrapped by `resend`. -/
inductive SendAttempt (α : Type) where
  | ok (a : α)
  | sendErr (s : DeliveryState)
deriving DecidableEq

/-- The `while retry > 0` loop of the inner function of `resend`: on
`SendException` with state `RELEASED` sleep `RESEND_DELAY`, decrement `retry`
and try again; on any other state re-raise; when the counter is exhausted the
loop falls through and the function returns `None`.  Returns the outcome as
seen by the surrounding `reliable` wrapper, the total seconds slept, and the
index after the last attempt made. -/
def resendLoop (fn : Nat → SendAttempt α) :
    Nat → Nat → Nat → ROutcome (Option α) × Nat × Nat
  | 0, attempt, slept => (.ok none, slept, attempt)
  | retry + 1, attempt, slept =>
    match fn attempt with
    | .ok a => (.ok (some a), slept, attempt + 1)
    | .sendErr s =>
      if s = DeliveryState.released then
        resendLoop fn retry (attempt + 1) (slept + RESEND_DELAY)
      else
        (.sendErr s, slept, attempt + 1)

/-- `resend`: the inner retry loop (budget `MAX_RESEND`) wrapped by
`reliable`. -/
def resend (fn : Nat → SendAttempt α) (fuel : Nat) :
    Option (RelResult (Option α) × RelState × Nat × Nat) :=
  let inner := resendLoop fn MAX_RESEND 0 0
  (reliableLoop (fun _ => inner.1) fuel 0 ⟨false, 0, 0⟩).map
    (fun r => (r.1, r.2, inner.2.1, inner.2.2))

end Reliability

/-! ## Theorems -/

/-- C8: every QMF reply whose `qmf.opcode` is not `_exception` makes
`Method.on_reply` return normally; an `_exception` reply whose
`_values.error_code` is `7` (already exists) also returns normally, making
declare idempotent; any other error code raises `Error` carrying that code and
the error text as description. -/
theorem C8_on_reply_exception_handling :
    ∀ r : Qpid.Reply,
      (r.opcode ≠ "_exception" → Qpid.Method.on_reply r = .ok ()) ∧
      (r.opcode = "_exception" → r.error_code = Qpid.EEXIST →
        Qpid.Method.on_reply r = .ok ()) ∧
      (r.opcode = "_exception" → r.error_code ≠ Qpid.EEXIST →
        Qpid.Method.on_reply r = .error ⟨r.error_text, r.error_code⟩) := by
  intro r
  refine ⟨fun h => ?_, fun h hc => ?_, fun h hc => ?_⟩
  · simp [Qpid.Method.on_reply, h]
  · simp [Qpid.Method.on_reply, h, hc]
  · simp [Qpid.Method.on_reply, h, hc]

theorem C8_on_reply_witness :
    Qpid.Method.on_reply ⟨"_method_response", 0, ""⟩ = .ok () ∧
    Qpid.Method.on_reply ⟨"_exception", 7, "exists"⟩ = .ok () ∧
    Qpid.Method.on_reply ⟨"_exception", 18, "boom"⟩ = .error ⟨"boom", 18⟩ :=
  ⟨(C8_on_reply_exception_handling ⟨"_method_response", 0, ""⟩).1 (by decide),
   (C8_on_reply_exception_handling ⟨"_exception", 7, "exists"⟩).2.1 rfl rfl,
   (C8_on_reply_exception_handling ⟨"_exception", 18, "boom"⟩).2.2 rfl (by decide)⟩

/-- C9 counterexample: on the normal-return path of a QMF method invocation
(with no failing closes) the connection is never closed, so the claim that
receiver, sender, session *and connection* are each closed is false. -/
theorem C9_counterexample :
    Qpid.Res.connection ∉ (Qpid.Method.call .ok ⟨false, false, false⟩).2 := by
  decide

/-- C9 (amended): on every exit path of a QMF method invocation after
acquisition (normal return or exception, and whatever closes fail), the
receiver, the sender and the session are closed in that reverse-acquisition
order with each close's exception suppressed so the remaining closes run;
the connection is not closed; the body's exception still propagates. -/
theorem C9_amended_scoped_close :
    ∀ (body : Qpid.BodyOutcome) (cf : Qpid.CloseFlags),
      (Qpid.Method.call body cf).2 =
        [Qpid.Res.receiver, Qpid.Res.sender, Qpid.Res.session] ∧
      Qpid.Res.connection ∉ (Qpid.Method.call body cf).2 ∧
      (Qpid.Method.call .ok cf).1 = .ok () ∧
      (∀ e, (Qpid.Method.call (.raised e) cf).1 = .error e) := by
  intro body cf
  obtain ⟨a, b, c⟩ := cf
  cases a <;> cases b <;> cases c <;> cases body <;>
    simp [Qpid.Method.call, Qpid.methodFinally, Qpid.attemptClose, Qpid.closeResult]

/-- C1: a message whose decoding raises `InvalidDocument` leads to exactly one
`rejected(code, description, body, details)` call and exactly one ack (the ack
performed at the reader boundary before the exception reaches `_read`'s
handler); no ack is ever emitted on a recoverable (non-`InvalidDocument`)
failure of the read or of the dispatch, nor on a timeout. -/
theorem C1_consumer_ack_discipline :
    ∀ (i : Invalid) (d : DispatchOutcome) (doc : String),
      (ConsumerThread.read (.invalid i) d).count Event.ack = 1 ∧
      (ConsumerThread.read (.invalid i) d).count
        (Event.rejected i.code i.description i.document i.details) = 1 ∧
      (ConsumerThread.read .failed d).count Event.ack = 0 ∧
      (ConsumerThread.read (.message doc) .failed).count Event.ack = 0 ∧
      (ConsumerThread.read .timeout d).count Event.ack = 0 ∧
      (ConsumerThread.read (.message doc) .ok).count Event.ack = 1 := by
  intro i d doc
  refine ⟨?_, ?_, ?_, ?_, ?_, ?_⟩ <;>
    simp [ConsumerThread.read, readerNext, List.count_cons, List.count_nil]

/-- Running the `reliable` loop over an operation that fails with
`ConnectionException` on its first `N` invocations (from `a`) and succeeds on
the next one: the success value is returned, the repair hook runs once per
retry (plus once more if it was already armed on entry), and `DELAY` seconds
are slept per retry. -/
theorem Reliability.reliableLoop_connErr_run {α : Type} :
    ∀ (N : Nat) (fn : Nat → Reliability.ROutcome α) (a : Nat)
      (s : Reliability.RelState) (v : α),
      (∀ k, k < N → fn (a + k) = .connErr) →
      fn (a + N) = .ok v →
      ∃ s', Reliability.reliableLoop fn (N + 1) a s = some (.ok v, s') ∧
        s'.repairs = s.repairs + N + (if s.repairSet then 1 else 0) ∧
        s'.slept = s.slept + N * Reliability.DELAY := by
  intro N
  induction N with
  | zero =>
    intro fn a s v _ hok
    refine ⟨if s.repairSet then { s with repairs := s.repairs + 1 } else s, ?_, ?_, ?_⟩
    · simp only [Reliability.reliableLoop]
      cases hs : s.repairSet <;> simp_all
    · cases hs : s.repairSet <;> simp [hs]
    · cases hs : s.repairSet <;> simp [hs]
  | succ n ih =>
    intro fn a s v hfail hok
    have h0 : fn a = .connErr := by simpa using hfail 0 (Nat.succ_pos n)
    have hfail' : ∀ k, k < n → fn (a + 1 + k) = .connErr := by
      intro k hk
      have := hfail (k + 1) (by omega)
      simpa [Nat.add_assoc, Nat.add_comm 1 k] using this
    have hok' : fn (a + 1 + n) = .ok v := by
      have : a + 1 + n = a + (n + 1) := by omega
      rw [this]; exact hok
    obtain ⟨s', hrun, hrep, hslept⟩ :=
      ih fn (a + 1)
        (if s.repairSet then
           { repairSet := true, repairs := s.repairs + 1,
             slept := s.slept + Reliability.DELAY }
         else
           { repairSet := true, repairs := s.repairs,
             slept := s.slept + Reliability.DELAY }) v hfail' hok'
    refine ⟨s', ?_, ?_, ?_⟩
    · simp only [Reliability.reliableLoop, h0]
      cases hs : s.repairSet <;> simp_all [Reliability.reliableLoop]
    · cases hs : s.repairSet <;> simp_all <;> omega
    · cases hs : s.repairSet <;> simp_all <;> ring

/-- C6: for every `N`, an operation wrapped by `reliable` that raises
`ConnectionException` on its first `N` invocations and succeeds on the
`N+1`-st returns the success value, with the messenger's repair hook invoked
exactly `N` times (once before each retry, never before the first attempt) and
`DELAY` seconds slept per retry. -/
theorem C6_reliable_repair_count {α : Type} :
    ∀ (N : Nat) (fn : Nat → Reliability.ROutcome α) (v : α),
      (∀ k, k < N → fn k = .connErr) →
      fn N = .ok v →
      ∃ s', Reliability.reliable fn (N + 1) = some (.ok v, s') ∧
        s'.repairs = N ∧ s'.slept = N * Reliability.DELAY := by
  intro N fn v hfail hok
  obtain ⟨s', hrun, hrep, hslept⟩ :=
    Reliability.reliableLoop_connErr_run N fn 0 ⟨false, 0, 0⟩ v
      (by simpa using hfail) (by simpa using hok)
  exact ⟨s', hrun, by simpa using hrep, by simpa using hslept⟩

theorem C6_reliable_repair_count_witness :
    ∃ s', Reliability.reliable
        (fun k => if k < 2 then .connErr else .ok 7) 3 = some (.ok 7, s') ∧
      s'.repairs = 2 ∧ s'.slept = 2 * Reliability.DELAY :=
  C6_reliable_repair_count 2 (fun k => if k < 2 then .connErr else .ok 7) 7
    (by decide) (by decide)

/-- Running the inner `resend` loop over a send that is released on its first
`N` attempts (from `attempt`) and accepted on the next one, with more than `N`
retries left: the success value is returned after sleeping `RESEND_DELAY`
seconds per release. -/
theorem Reliability.resendLoop_released_run {α : Type} :
    ∀ (N : Nat) (fn : Nat → Reliability.SendAttempt α)
      (retry attempt slept : Nat) (v : α),
      (∀ k, k < N → fn (attempt + k) = .sendErr .released) →
      fn (attempt + N) = .ok v →
      N < retry →
      Reliability.resendLoop fn retry attempt slept =
        (.ok (some v), slept + N * Reliability.RESEND_DELAY, attempt + N + 1) := by
  intro N
  induction N with
  | zero =>
    intro fn retry attempt slept v _ hok hlt
    obtain ⟨r, rfl⟩ : ∃ r, retry = r + 1 := ⟨retry - 1, by omega⟩
    simp only [Reliability.resendLoop]
    simp_all
  | succ n ih =>
    intro fn retry attempt slept v hfail hok hlt
    obtain ⟨r, rfl⟩ : ∃ r, retry = r + 1 := ⟨retry - 1, by omega⟩
    have h0 : fn attempt = .sendErr .released := by
      simpa using hfail 0 (Nat.succ_pos n)
    have hfail' : ∀ k, k < n → fn (attempt + 1 + k) = .sendErr .released := by
      intro k hk
      have := hfail (k + 1) (by omega)
      simpa [Nat.add_assoc, Nat.add_comm 1 k] using this
    have hok' : fn (attempt + 1 + n) = .ok v := by
      have h : attempt + 1 + n = attempt + (n + 1) := by omega
      rw [h]; exact hok
    have := ih fn r (attempt + 1) (slept + Reliability.RESEND_DELAY) v hfail' hok' (by omega)
    simp only [Reliability.resendLoop, h0, if_true, this, Prod.mk.injEq]
    refine ⟨trivial, by ring, by omega⟩

/-- The inner `resend` loop over a send whose first attempt fails with a
non-released state: the exception propagates at once, with no sleep and no
further attempt. -/
theorem Reliability.resendLoop_terminal {α : Type} :
    ∀ (fn : Nat → Reliability.SendAttempt α)
      (retry attempt slept : Nat) (s : Reliability.DeliveryState),
      s ≠ .released →
      fn attempt = .sendErr s →
      0 < retry →
      Reliability.resendLoop fn retry attempt slept = (.sendErr s, slept, attempt + 1) := by
  intro fn retry attempt slept s hs hfn hlt
  obtain ⟨r, rfl⟩ : ∃ r, retry = r + 1 := ⟨retry - 1, by omega⟩
  simp [Reliability.resendLoop, hfn, hs]

/-- The inner `resend` loop over a send that is released on every attempt:
the retry budget is consumed entirely and the loop falls through, returning
`None`. -/
theorem Reliability.resendLoop_exhaust {α : Type} :
    ∀ (retry attempt slept : Nat) (fn : Nat → Reliability.SendAttempt α),
      (∀ k, fn k = .sendErr .released) →
      Reliability.resendLoop fn retry attempt slept =
        (.ok none, slept + retry * Reliability.RESEND_DELAY, attempt + retry) := by
  intro retry
  induction retry with
  | zero => intro attempt slept fn _; simp [Reliability.resendLoop]
  | succ r ih =>
    intro attempt slept fn hfn
    simp only [Reliability.resendLoop, hfn attempt, if_true,
      ih (attempt + 1) (slept + Reliability.RESEND_DELAY) fn hfn, Prod.mk.injEq]
    refine ⟨trivial, by ring, by omega⟩

/-- C7: under the `resend` wrapper, `MAX_RESEND = 86400 / RESEND_DELAY`; a send
released on its first `N` attempts (with `N` below the `MAX_RESEND` budget the
counter starts from) and accepted on the next sleeps `RESEND_DELAY` seconds per
release and is retried, returning the success value on attempt `N + 1`; a send
failing with any other state propagates the exception to the caller after that
single attempt, with no sleep. -/
theorem C7_resend_released_retry {α : Type} :
    ∀ (N : Nat) (fn : Nat → Reliability.SendAttempt α) (v : α)
      (s : Reliability.DeliveryState),
      Reliability.MAX_RESEND = 86400 / Reliability.RESEND_DELAY ∧
      ((∀ k, k < N → fn k = .sendErr .released) → fn N = .ok v →
        N < Reliability.MAX_RESEND →
        Reliability.resend fn 1 =
          some (.ok (some v), ⟨false, 0, 0⟩, N * Reliability.RESEND_DELAY, N + 1)) ∧
      (fn 0 = .sendErr s → s ≠ .released →
        Reliability.resend fn 1 = some (.sendErr s, ⟨false, 0, 0⟩, 0, 1)) := by
  intro N fn v s
  refine ⟨by simp [Reliability.MAX_RESEND, Reliability.DAY], fun hfail hok hN => ?_,
    fun hfn hs => ?_⟩
  · have h := Reliability.resendLoop_released_run N fn Reliability.MAX_RESEND 0 0 v
      (by simpa using hfail) (by simpa using hok) hN
    simp [Reliability.resend, h, Reliability.reliableLoop]
  · have h := Reliability.resendLoop_terminal fn Reliability.MAX_RESEND 0 0 s hs hfn
      (by simp [Reliability.MAX_RESEND, Reliability.DAY, Reliability.RESEND_DELAY])
    simp [Reliability.resend, h, Reliability.reliableLoop]

theorem C7_resend_released_retry_witness :
    Reliability.resend (fun k => if k < 2 then .sendErr .released else .ok 9) 1 =
      some (.ok (some 9), ⟨false, 0, 0⟩, 2 * Reliability.RESEND_DELAY, 3) ∧
    Reliability.resend
        (fun _ => Reliability.SendAttempt.sendErr (α := Nat) .rejectedState) 1 =
      some (.sendErr .rejectedState, ⟨false, 0, 0⟩, 0, 1) :=
  ⟨(C7_resend_released_retry 2 (fun k => if k < 2 then .sendErr .released else .ok 9)
      9 .released).2.1 (by decide) (by decide) (by decide),
   (C7_resend_released_retry 0
      (fun _ => Reliability.SendAttempt.sendErr (α := Nat) .rejectedState)
      0 .rejectedState).2.2 rfl (by decide)⟩

/-- C10: a send wrapped by `resend` whose every attempt raises `SendException`
with state `Released` makes exactly `MAX_RESEND` attempts — sleeping a full
24 hours in total — and then the wrapped call returns `None` to the caller
without raising: exhaustion of the retry budget is indistinguishable from a
successful send that returns `None`. -/
theorem C10_resend_exhaustion_returns_none :
    Reliability.resend (fun _ => Reliability.SendAttempt.sendErr (α := Nat) .released) 1 =
      some (.ok none, ⟨false, 0, 0⟩,
        Reliability.MAX_RESEND * Reliability.RESEND_DELAY, Reliability.MAX_RESEND) ∧
    Reliability.MAX_RESEND = 8640 ∧
    Reliability.MAX_RESEND * Reliability.RESEND_DELAY = 86400 := by
  have h := Reliability.resendLoop_exhaust Reliability.MAX_RESEND 0 0
    (fun _ => Reliability.SendAttempt.sendErr (α := Nat) .released) (fun _ => rfl)
  refine ⟨?_, by norm_num [Reliability.MAX_RESEND, Reliability.DAY,
      Reliability.RESEND_DELAY],
    by norm_num [Reliability.MAX_RESEND, Reliability.DAY, Reliability.RESEND_DELAY]⟩
  simp [Reliability.resend, h, Reliability.reliableLoop]

/-- C2 counterexample: a concrete `add` writes `ROOT/{sn}` but its filesystem
trace contains no fsync at all, so the claim that the write is followed by an
fsync is false. -/
theorem C2_counterexample :
    (PendingQueue.add 5 "amqp://h" ⟨"s1", "a1", none, none, none⟩
        (PendingQueue.emptySys ⟨[]⟩)).2 =
      [FsOp.write "s1" (.doc ⟨"s1", "a1", some 5, some "amqp://h", none⟩)] ∧
    (PendingQueue.add 5 "amqp://h" ⟨"s1", "a1", none, none, none⟩
        (PendingQueue.emptySys ⟨[]⟩)).2.any FsOp.isFsync = false := by
  constructor <;> rfl

/-- C2 (amended): for every call `PendingQueue.add(url, envelope)`, the
envelope's `ts` is set to the current time and `url` to the given url; the file
`ROOT/{sn}` is written with the full dump of the envelope (the write is the
only filesystem operation performed — no fsync is issued); then, under the
lock, `tracker.add(sn, any)` is called and the envelope is inserted at the head
of `pending`; and the items-available event is signalled. -/
theorem C2_amended_add_effects :
    ∀ (now : Nat) (url : String) (e : Envelope) (st : Sys),
      (PendingQueue.stamp now url e).ts = some now ∧
      (PendingQueue.stamp now url e).url = some url ∧
      (PendingQueue.add now url e st).2 =
        [FsOp.write e.sn (PendingQueue.stamp now url e).dump] ∧
      readFile (PendingQueue.add now url e st).1.fs e.sn =
        some (PendingQueue.stamp now url e).dump ∧
      (PendingQueue.add now url e st).1.pending =
        PendingQueue.stamp now url e :: st.pending ∧
      (PendingQueue.add now url e st).1.tracker = st.tracker.add e.sn e.any ∧
      Tracker.find (PendingQueue.add now url e st).1.tracker e.sn =
        some ⟨e.sn, e.any, false⟩ ∧
      (PendingQueue.add now url e st).1.event = true := by
  intro now url e st
  refine ⟨rfl, rfl, rfl, ?_, rfl, rfl, ?_, rfl⟩
  · simp [PendingQueue.add, PendingQueue.stamp, readFile, writeFile, List.find?]
  · simp [PendingQueue.add, PendingQueue.stamp, Tracker.add, Tracker.find,
      List.find?]

/-- The directory scan of `__load`, expressed as a filter pair: decodable
files contribute their `(ctime, envelope)` pair and stay on disk, the rest are
unlinked. -/
theorem PendingQueue.load_scan_eq :
    ∀ (dir : List DirEntry) (acc : List (Nat × Envelope) × List DirEntry),
      dir.foldl PendingQueue.loadStep acc =
        (acc.1 ++ dir.filterMap (fun f => (decode f.data).map (fun e => (f.ctime, e))),
         acc.2 ++ dir.filter (fun f => (decode f.data).isSome)) := by
  intro dir
  induction dir with
  | nil => intro acc; simp
  | cons f rest ih =>
    intro acc
    cases hf : decode f.data with
    | none =>
      simp [List.foldl_cons, PendingQueue.loadStep, hf, ih]
    | some e =>
      simp [List.foldl_cons, PendingQueue.loadStep, hf, ih]

/-- C4: after the constructor's `__load`, the files remaining in `ROOT` are
exactly those of the original directory that decode, and the in-memory pending
list is the decoded envelopes, reinserted in ctime order (a ctime-sorted
rearrangement of the decodable entries); no file that fails to decode survives
on disk. -/
theorem C4_load_invariant :
    ∀ (dir : List DirEntry) (tr : Tracker),
      (PendingQueue.init tr dir).fs =
        dir.filter (fun f => (decode f.data).isSome) ∧
      (∀ f ∈ dir,
        (∃ e, decode f.data = some e ∧ e ∈ (PendingQueue.init tr dir).pending) ∨
        (decode f.data = none ∧ f ∉ (PendingQueue.init tr dir).fs)) ∧
      ∃ pairs : List (Nat × Envelope),
        pairs.Perm
          (dir.filterMap (fun f => (decode f.data).map (fun e => (f.ctime, e)))) ∧
        List.Sorted PendingQueue.byCtime pairs ∧
        (PendingQueue.init tr dir).pending = pairs.map Prod.snd := by
  intro dir tr
  have hfs : (PendingQueue.init tr dir).fs =
      dir.filter (fun f => (decode f.data).isSome) := by
    simp [PendingQueue.init, PendingQueue.load, PendingQueue.load_scan_eq]
  have hperm : (((dir.foldl PendingQueue.loadStep ([], [])).1).insertionSort
      PendingQueue.byCtime).Perm
      (dir.filterMap (fun f => (decode f.data).map (fun e => (f.ctime, e)))) := by
    have h := List.perm_insertionSort PendingQueue.byCtime
      (dir.foldl PendingQueue.loadStep ([], [])).1
    simpa [PendingQueue.load_scan_eq] using h
  refine ⟨hfs, ?_, _, hperm, List.sorted_insertionSort PendingQueue.byCtime _, rfl⟩
  intro f hf
  cases hd : decode f.data with
  | none =>
    refine .inr ⟨rfl, ?_⟩
    rw [hfs]
    intro hmem
    have := (List.mem_filter.mp hmem).2
    simp [hd] at this
  | some e =>
    refine .inl ⟨e, rfl, ?_⟩
    have hin : (f.ctime, e) ∈
        dir.filterMap (fun f => (decode f.data).map (fun e => (f.ctime, e))) := by
      exact List.mem_filterMap.mpr ⟨f, hf, by simp [hd]⟩
    have := hperm.symm.subset hin
    have : e ∈ (((dir.foldl PendingQueue.loadStep ([], [])).1).insertionSort
        PendingQueue.byCtime).map Prod.snd :=
      List.mem_map.mpr ⟨(f.ctime, e), this, rfl⟩
    exact this

theorem C4_load_invariant_witness :
    (∃ e, decode (FileData.doc ⟨"a", "", none, none, none⟩) = some e ∧
      e ∈ (PendingQueue.init ⟨[]⟩
        [⟨"a", .doc ⟨"a", "", none, none, none⟩, 1⟩, ⟨"x", .garbage, 2⟩]).pending) ∨
    (decode (FileData.doc ⟨"a", "", none, none, none⟩) = none ∧
      (⟨"a", .doc ⟨"a", "", none, none, none⟩, 1⟩ : DirEntry) ∉
        (PendingQueue.init ⟨[]⟩
          [⟨"a", .doc ⟨"a", "", none, none, none⟩, 1⟩, ⟨"x", .garbage, 2⟩]).fs) :=
  (C4_load_invariant
      [⟨"a", .doc ⟨"a", "", none, none, none⟩, 1⟩, ⟨"x", .garbage, 2⟩] ⟨[]⟩).2.1
    ⟨"a", .doc ⟨"a", "", none, none, none⟩, 1⟩ (by simp)

/-- Erasing the last element of a list it does not otherwise occur in. -/
theorem PendingQueue.erase_snoc (l : List Envelope) (e : Envelope) (h : e ∉ l) :
    (l ++ [e]).erase e = l := by
  induction l with
  | nil => simp
  | cons x rest ih =>
    have hxe : x ≠ e := by
      intro hx; exact h (hx ▸ List.mem_cons_self x rest)
    have hrest : e ∉ rest := fun hr => h (List.mem_cons_of_mem x hr)
    simp only [List.cons_append, List.erase_cons]
    rw [if_neg (by simpa using hxe), ih hrest]

/-- `__pop` skips over a leading block of delayed entries without touching the
state. -/
theorem PendingQueue.popFrom_skip (now : Nat) :
    ∀ (q1 q2 : List Envelope) (st : Sys),
      (∀ x ∈ q1, PendingQueue.delayed now st.tracker x = .ok true) →
      PendingQueue.popFrom now (q1 ++ q2) st = PendingQueue.popFrom now q2 st := by
  intro q1
  induction q1 with
  | nil => intro q2 st _; simp
  | cons x rest ih =>
    intro q2 st hq
    have hx := hq x (List.mem_cons_self x rest)
    simp only [List.cons_append, PendingQueue.popFrom, hx]
    exact ih q2 st (fun y hy => hq y (List.mem_cons_of_mem x hy))

/-- A delayed envelope is never returned by `__pop`, stays in `__pending`, and
the tracker is untouched. -/
theorem PendingQueue.popFrom_delayed_stays (now : Nat) (e : Envelope) :
    ∀ (q : List Envelope) (st : Sys),
      PendingQueue.delayed now st.tracker e = .ok true →
      e ∈ st.pending →
      (PendingQueue.popFrom now q st).1 ≠ some e ∧
      e ∈ (PendingQueue.popFrom now q st).2.pending ∧
      (PendingQueue.popFrom now q st).2.tracker = st.tracker := by
  intro q
  induction q with
  | nil => intro st _ hmem; exact ⟨by simp [PendingQueue.popFrom], hmem, rfl⟩
  | cons x rest ih =>
    intro st hdel hmem
    cases hx : PendingQueue.delayed now st.tracker x with
    | ok b =>
      cases b with
      | true =>
        simp only [PendingQueue.popFrom, hx]
        exact ih st hdel hmem
      | false =>
        have hne : x ≠ e := by
          intro h; rw [h] at hx; rw [hx] at hdel; exact absurd hdel (by simp)
        simp only [PendingQueue.popFrom, hx]
        refine ⟨by simpa using hne, ?_, rfl⟩
        simpa [PendingQueue.pendingCommit] using
          (List.mem_erase_of_ne (a := e) (b := x) (fun h => hne h.symm)).mpr hmem
    | error u =>
      have hne : x ≠ e := by
        intro h; rw [h] at hx; rw [hx] at hdel; exact absurd hdel (by simp)
      simp only [PendingQueue.popFrom, hx]
      have hmem' : e ∈ (PendingQueue.purge x st).pending := by
        simpa [PendingQueue.purge] using
          (List.mem_erase_of_ne (a := e) (b := x) (fun h => hne h.symm)).mpr hmem
      have hdel' : PendingQueue.delayed now (PendingQueue.purge x st).tracker e =
          .ok true := hdel
      exact ih (PendingQueue.purge x st) hdel' hmem'

/-- C5: for an envelope in `pending` whose window is in the future, a cancelled
tracker entry means the envelope is not delayed, and the next get scan returns
it as soon as every entry nearer the tail is delayed; conversely, with a
non-cancelled tracker entry the envelope is delayed, is never returned by the
scan, and is left in `pending`. -/
theorem C5_cancellation_window :
    ∀ (now : Nat) (st : Sys) (e : Envelope) (w : Window),
      e.window = some (.valid w) →
      w.future now = true →
      ((st.tracker.cancelled e.sn = true →
        PendingQueue.delayed now st.tracker e = .ok false ∧
        (∀ l1 l2, st.pending = l1 ++ e :: l2 →
          (∀ x ∈ l2, PendingQueue.delayed now st.tracker x = .ok true) →
          (PendingQueue.getScan now st).1 = some e)) ∧
       (st.tracker.cancelled e.sn = false →
        PendingQueue.delayed now st.tracker e = .ok true ∧
        (e ∈ st.pending →
          (PendingQueue.getScan now st).1 ≠ some e ∧
          e ∈ (PendingQueue.getScan now st).2.pending))) := by
  intro now st e w hw hfut
  constructor
  · intro hc
    have hdel : PendingQueue.delayed now st.tracker e = .ok false := by
      simp [PendingQueue.delayed, hw, hc]
    refine ⟨hdel, fun l1 l2 hp hl2 => ?_⟩
    unfold PendingQueue.getScan
    rw [hp]
    have : (l1 ++ e :: l2).reverse = l2.reverse ++ e :: l1.reverse := by
      simp
    rw [this, PendingQueue.popFrom_skip now l2.reverse (e :: l1.reverse) st
      (fun x hx => hl2 x (by simpa using hx))]
    simp [PendingQueue.popFrom, hdel]
  · intro hc
    have hdel : PendingQueue.delayed now st.tracker e = .ok true := by
      simp [PendingQueue.delayed, hw, hc, hfut]
    refine ⟨hdel, fun hmem => ?_⟩
    have h := PendingQueue.popFrom_delayed_stays now e st.pending.reverse st hdel hmem
    exact ⟨h.1, h.2.1⟩

theorem C5_cancellation_window_witness :
    (PendingQueue.getScan 0
      { pending := [⟨"s", "", none, none, some (.valid ⟨100, 5⟩)⟩],
        uncommitted := [], fs := [],
        tracker := ⟨[⟨"s", "", true⟩]⟩, event := false }).1 =
      some ⟨"s", "", none, none, some (.valid ⟨100, 5⟩)⟩ ∧
    (PendingQueue.getScan 0
      { pending := [⟨"s", "", none, none, some (.valid ⟨100, 5⟩)⟩],
        uncommitted := [], fs := [],
        tracker := ⟨[]⟩, event := false }).1 ≠
      some ⟨"s", "", none, none, some (.valid ⟨100, 5⟩)⟩ ∧
    (⟨"s", "", none, none, some (.valid ⟨100, 5⟩)⟩ : Envelope) ∈
      (PendingQueue.getScan 0
        { pending := [⟨"s", "", none, none, some (.valid ⟨100, 5⟩)⟩],
          uncommitted := [], fs := [],
          tracker := ⟨[]⟩, event := false }).2.pending := by
  refine ⟨?_, ?_, ?_⟩
  · exact ((C5_cancellation_window 0
      { pending := [⟨"s", "", none, none, some (.valid ⟨100, 5⟩)⟩],
        uncommitted := [], fs := [],
        tracker := ⟨[⟨"s", "", true⟩]⟩, event := false }
      ⟨"s", "", none, none, some (.valid ⟨100, 5⟩)⟩ ⟨100, 5⟩ rfl rfl).1
      (by decide)).2 [] [] rfl (by simp)
  · exact (((C5_cancellation_window 0
      { pending := [⟨"s", "", none, none, some (.valid ⟨100, 5⟩)⟩],
        uncommitted := [], fs := [],
        tracker := ⟨[]⟩, event := false }
      ⟨"s", "", none, none, some (.valid ⟨100, 5⟩)⟩ ⟨100, 5⟩ rfl rfl).2
      (by decide)).2 (by simp)).1
  · exact (((C5_cancellation_window 0
      { pending := [⟨"s", "", none, none, some (.valid ⟨100, 5⟩)⟩],
        uncommitted := [], fs := [],
        tracker := ⟨[]⟩, event := false }
      ⟨"s", "", none, none, some (.valid ⟨100, 5⟩)⟩ ⟨100, 5⟩ rfl rfl).2
      (by decide)).2 (by simp)).2

/-- A get scan over a pending list whose tail entry is ready returns that
entry and removes exactly it from `pending`, leaving the tracker alone. -/
theorem PendingQueue.getScan_ready (now : Nat) (st : Sys) (l : List Envelope)
    (e : Envelope) (hp : st.pending = l ++ [e])
    (hd : PendingQueue.delayed now st.tracker e = .ok false)
    (he : e ∉ l) :
    PendingQueue.getScan now st =
      (some e,
       { st with
          pending := l
          uncommitted := (e.sn, e) :: st.uncommitted.filter (fun p => p.1 ≠ e.sn) }) := by
  unfold PendingQueue.getScan
  rw [hp]
  have hrev : (l ++ [e]).reverse = e :: l.reverse := by simp
  rw [hrev]
  simp only [PendingQueue.popFrom, hd, PendingQueue.pendingCommit, hp]
  rw [PendingQueue.erase_snoc l e he]

/-- Draining a queue whose pending list is the reverse of `es` (so that `es`
is ordered tail-first) dispatches exactly `es`, in order, when every entry is
windowless and the entries are distinct. -/
theorem PendingQueue.drain_reverse (now : Nat) :
    ∀ (es : List Envelope) (st : Sys),
      st.pending = es.reverse →
      (∀ x ∈ es, x.window = none) →
      es.Nodup →
      PendingQueue.drain now es.length st = es := by
  intro es
  induction es with
  | nil => intro st _ _ _; simp [PendingQueue.drain]
  | cons e rest ih =>
    intro st hp hw hnd
    have hrev : st.pending = rest.reverse ++ [e] := by simpa using hp
    have hdel : PendingQueue.delayed now st.tracker e = .ok false := by
      simp [PendingQueue.delayed, hw e (List.mem_cons_self e rest)]
    have hne : e ∉ rest.reverse := by
      simpa using (List.nodup_cons.mp hnd).1
    have hs := PendingQueue.getScan_ready now st rest.reverse e hrev hdel hne
    simp only [List.length_cons, PendingQueue.drain, hs]
    congr 1
    exact ih _ rfl (fun x hx => hw x (List.mem_cons_of_mem e hx))
      (List.nodup_cons.mp hnd).2

/-- A sequence of `add` calls stacks the stamped envelopes newest-first on top
of the existing pending list. -/
theorem PendingQueue.addAll_pending (now : Nat) (url : String) :
    ∀ (es : List Envelope) (st : Sys),
      (PendingQueue.addAll now url es st).pending =
        (es.map (PendingQueue.stamp now url)).reverse ++ st.pending := by
  intro es
  induction es with
  | nil => intro st; simp [PendingQueue.addAll]
  | cons e rest ih =>
    intro st
    have : PendingQueue.addAll now url (e :: rest) st =
        PendingQueue.addAll now url rest (PendingQueue.add now url e st).1 := rfl
    rw [this, ih]
    simp [PendingQueue.add]

/-- C3 counterexample: rebuild a queue from a directory holding two decodable
files with ctimes 1 < 2; the first get scan returns the envelope of the
*newer* file (ctime 2), not the oldest-by-ctime one, so dispatch order for a
load-rebuilt instance is not file-ctime order. -/
theorem C3_counterexample :
    (PendingQueue.init ⟨[]⟩
        [⟨"a", .doc ⟨"a", "", none, none, none⟩, 1⟩,
         ⟨"b", .doc ⟨"b", "", none, none, none⟩, 2⟩]).pending =
      [⟨"a", "", none, none, none⟩, ⟨"b", "", none, none, none⟩] ∧
    (PendingQueue.getScan 0 (PendingQueue.init ⟨[]⟩
        [⟨"a", .doc ⟨"a", "", none, none, none⟩, 1⟩,
         ⟨"b", .doc ⟨"b", "", none, none, none⟩, 2⟩])).1 =
      some ⟨"b", "", none, none, none⟩ ∧
    (⟨"b", "", none, none, none⟩ : Envelope) ≠ ⟨"a", "", none, none, none⟩ := by
  refine ⟨by decide, by decide, by decide⟩

/-- C3 (amended): successive get calls pop from the tail of the pending list.
For a queue populated by `add` calls — which insert newest-first at the head —
this dispatches the (stamped) envelopes oldest-first, in insertion order; but
for a queue rebuilt from disk by the constructor's load, `pending` is sorted
ctime-ascending and popping from the tail dispatches newest-first, the
*reverse* of file-ctime order. -/
theorem C3_amended_dispatch_order :
    (∀ (now : Nat) (url : String) (es : List Envelope) (tr : Tracker),
      (∀ x ∈ es, x.window = none) →
      (es.map (PendingQueue.stamp now url)).Nodup →
      PendingQueue.drain now es.length
          (PendingQueue.addAll now url es (PendingQueue.emptySys tr)) =
        es.map (PendingQueue.stamp now url)) ∧
    (∀ (now : Nat) (dir : List DirEntry) (tr : Tracker),
      (∀ x ∈ (PendingQueue.init tr dir).pending, x.window = none) →
      (PendingQueue.init tr dir).pending.Nodup →
      PendingQueue.drain now (PendingQueue.init tr dir).pending.length
          (PendingQueue.init tr dir) =
        (PendingQueue.init tr dir).pending.reverse) := by
  constructor
  · intro now url es tr hw hnd
    have hp : (PendingQueue.addAll now url es (PendingQueue.emptySys tr)).pending =
        (es.map (PendingQueue.stamp now url)).reverse := by
      simpa [PendingQueue.emptySys] using
        PendingQueue.addAll_pending now url es (PendingQueue.emptySys tr)
    have hlen : es.length = (es.map (PendingQueue.stamp now url)).length := by simp
    rw [hlen]
    refine PendingQueue.drain_reverse now (es.map (PendingQueue.stamp now url)) _ hp
      ?_ hnd
    intro x hx
    obtain ⟨y, hy, rfl⟩ := List.mem_map.mp hx
    simpa [PendingQueue.stamp] using hw y hy
  · intro now dir tr hw hnd
    have hlen : (PendingQueue.init tr dir).pending.length =
        (PendingQueue.init tr dir).pending.reverse.length := by simp
    rw [hlen]
    refine PendingQueue.drain_reverse now (PendingQueue.init tr dir).pending.reverse _
      (by simp) ?_ (by simpa using hnd)
    intro x hx
    exact hw x (by simpa using hx)

theorem C3_amended_dispatch_order_witness :
    PendingQueue.drain 7 2
        (PendingQueue.addAll 7 "amqp://h"
          [⟨"a", "", none, none, none⟩, ⟨"b", "", none, none, none⟩]
          (PendingQueue.emptySys ⟨[]⟩)) =
      [⟨"a", "", some 7, some "amqp://h", none⟩,
       ⟨"b", "", some 7, some "amqp://h", none⟩] ∧
    PendingQueue.drain 0 2
        (PendingQueue.init ⟨[]⟩
          [⟨"a", .doc ⟨"a", "", none, none, none⟩, 1⟩,
           ⟨"b", .doc ⟨"b", "", none, none, none⟩, 2⟩]) =
      [⟨"b", "", none, none, none⟩, ⟨"a", "", none, none, none⟩] := by
  constructor
  · exact C3_amended_dispatch_order.1 7 "amqp://h"
      [⟨"a", "", none, none, none⟩, ⟨"b", "", none, none, none⟩] ⟨[]⟩
      (by decide) (by decide)
  · have h := C3_amended_dispatch_order.2 0
      [⟨"a", .doc ⟨"a", "", none, none, none⟩, 1⟩,
       ⟨"b", .doc ⟨"b", "", none, none, none⟩, 2⟩] ⟨[]⟩
      (by decide) (by decide)
    simpa using h

end Gofer
